import Mathlib

/-!
Verification development for the `raptor-rs` repository: a shallow
embedding of the RAPTOR round-based public-transit router
(`src/lib.rs`) and of the GTFS feed adapter's `Timetable`
implementation (`src/gtfs.rs`), together with theorems settling the
specification's claims.

Modelling conventions:
* `Tau` (Rust `usize`) is embedded as `Nat`; the unreachable sentinel
  `Tau::MAX` is `tauMax = 2^64 - 1`.  The only arithmetic the engine
  performs on labels is the Stage-3 addition, embedded as `usizeAdd`,
  which wraps modulo `2^64` exactly as release-mode Rust `+` on
  `usize` does (a debug build would abort there instead; either way
  the sum does not saturate).
* `BTreeMap`s that the engine only ever reads through `get` are
  embedded as association lists where `insert` conses at the head and
  `alookup` returns the most recent binding; this has exactly the
  `get`/`insert` observable behaviour of a map.
* `BTreeSet`s (`marked_stops`) and the `BTreeMap` `Q`, which the code
  *iterates*, are embedded as lists kept sorted by a strict-order
  `Bool` comparison carried in the `Timetable` structure, matching the
  ascending iteration order of the Rust ordered containers.
-/

abbrev K := Nat
abbrev Tau := Nat

/-- The default body of the contract's `get_transfer_time`
(`src/lib.rs` lines 88-91): the constant `1` for every pair. -/
def default_transfer_time (a b : Stop) : Tau :=
  let _ := (a, b)
  1

/-- `usize::MAX`, the unreachable sentinel `Tau::MAX` of the source. -/
def tauMax : Tau := 18446744073709551615

/-- Release-mode Rust `+` on `usize`: addition wrapping modulo `2^64`. -/
def usizeAdd (a b : Tau) : Tau := (a + b) % 18446744073709551616

/-- Association-list lookup; the head binding shadows older ones, so a
head-cons is observably a map `insert`. -/
def alookup [DecidableEq α] : List (α × β) → α → Option β
  | [], _ => none
  | (k, v) :: rest, a => if a = k then some v else alookup rest a

/-- Ordered-set insertion for a `BTreeSet` embedded as a sorted list:
keeps ascending `lt` order and deduplicates. -/
def setInsert (lt : α → α → Bool) (a : α) : List α → List α
  | [] => [a]
  | b :: rest =>
    if lt a b then a :: b :: rest
    else if lt b a then b :: setInsert lt a rest
    else b :: rest

/-- `Journey` of `src/lib.rs`. -/
structure Journey (Route Stop : Type) where
  plan : List (Route × Stop)
  arrival : Tau
deriving DecidableEq, Repr

/-- The `Timetable` trait of `src/lib.rs`.  The `stopLt`/`routeLt`
fields embed the `Ord` bounds on the associated `Stop`/`Route` types
(they drive the iteration order of `marked_stops` and `Q`).  The
`get_transfer_time` default body `1` of the trait is the structure
field default. -/
structure Timetable (Stop Route Trip : Type) where
  stopLt : Stop → Stop → Bool
  routeLt : Route → Route → Bool
  get_routes_serving_stop : Stop → List Route
  get_earlier_stop : Route → Stop → Stop → Stop
  get_stops_after : Route → Stop → List Stop
  get_earliest_trip : Route → Tau → Stop → Option Trip
  get_arrival_time : Trip → Stop → Tau
  get_departure_time : Trip → Stop → Tau
  get_footpaths_from : Stop → List Stop
  get_transfer_time : Stop → Stop → Tau := default_transfer_time

/-- The per-query mutable state of `Timetable::raptor`:
`best_arrival_per_k`, `best_arrival`, `board_detail_per_k`
(the `BoardingTree`), and `marked_stops`. -/
structure RState (Stop Route : Type) where
  best_arrival_per_k : List ((K × Stop) × Tau)
  best_arrival : List (Stop × Tau)
  board_detail_per_k : List ((K × Stop) × (Stop × Route))
  marked_stops : List Stop

/-- Lines 101-107 of `src/lib.rs`: `best_arrival_per_k` holds only
`(0, ps) ↦ tau`, `best_arrival` and the boarding tree start empty, and
`marked_stops = {ps}`. -/
def initState (ps : Stop) (tau : Tau) : RState Stop Route :=
  { best_arrival_per_k := [((0, ps), tau)]
    best_arrival := []
    board_detail_per_k := []
    marked_stops := [ps] }

/-- One `Q.entry(route).or_insert(marked_stop)` plus
`*p_dash = get_earlier_stop(route, marked_stop, *p_dash)` update of the
round's route queue, keyed in ascending `routeLt` order. -/
def updateQ (tt : Timetable Stop Route Trip) (r : Route) (m : Stop) :
    List (Route × Stop) → List (Route × Stop)
  | [] => [(r, tt.get_earlier_stop r m m)]
  | (r', p) :: rest =>
    if tt.routeLt r r' then (r, tt.get_earlier_stop r m m) :: (r', p) :: rest
    else if tt.routeLt r' r then (r', p) :: updateQ tt r m rest
    else (r', tt.get_earlier_stop r m p) :: rest

/-- Stage 1 (lines 114-122): collect the routes serving the marked
stops into `Q`. -/
def stage1 (tt : Timetable Stop Route Trip) (marked : List Stop) :
    List (Route × Stop) :=
  marked.foldl
    (fun q m => (tt.get_routes_serving_stop m).foldl (fun q r => updateQ tt r m q) q)
    []

/-- The state threaded through one route scan: `current_trip`,
`boarding_stop`, and the query state. -/
structure ScanState (Stop Route Trip : Type) where
  current_trip : Option Trip
  boarding_stop : Stop
  st : RState Stop Route

/-- The relaxation step of Stage 2 (lines 132-143): if a trip is
currently held and beats `min(τ*[sᵢ], τ*[p_t])`, record the boarding
trace entry, the per-round and global labels, and mark `sᵢ`. -/
def relaxStep [DecidableEq Stop] (tt : Timetable Stop Route Trip) (pt : Stop) (k : K)
    (route : Route) (s : ScanState Stop Route Trip) (pi : Stop) :
    ScanState Stop Route Trip :=
  match s.current_trip with
  | some trip =>
    let arr := tt.get_arrival_time trip pi
    let best_arrival_to_target := (alookup s.st.best_arrival pt).getD tauMax
    let best_arrival_to_pi := (alookup s.st.best_arrival pi).getD tauMax
    let time_to_beat := min best_arrival_to_pi best_arrival_to_target
    if arr < time_to_beat then
      { s with st :=
          { s.st with
            board_detail_per_k := ((k, pi), (s.boarding_stop, route)) :: s.st.board_detail_per_k
            best_arrival_per_k := ((k, pi), arr) :: s.st.best_arrival_per_k
            best_arrival := (pi, arr) :: s.st.best_arrival
            marked_stops := setInsert tt.stopLt pi s.st.marked_stops } }
    else s
  | none => s

/-- The board-update step of Stage 2 (lines 145-153): when
`τ*[k-1, sᵢ]` does not exceed the held trip's departure (no-trip reads
`∞`), re-board the earliest catchable trip at `sᵢ`. -/
def boardUpdate [DecidableEq Stop] (tt : Timetable Stop Route Trip) (k : K)
    (route : Route) (s : ScanState Stop Route Trip) (pi : Stop) :
    ScanState Stop Route Trip :=
  let t_prev_pi := (alookup s.st.best_arrival_per_k (k - 1, pi)).getD tauMax
  if t_prev_pi ≤ (s.current_trip.map (fun trip => tt.get_departure_time trip pi)).getD tauMax then
    { s with current_trip := tt.get_earliest_trip route t_prev_pi pi, boarding_stop := pi }
  else s

/-- The body of the `for pi in self.get_stops_after(route, p)` loop of
Stage 2 (lines 131-154): the relaxation step followed by the
board-update step. -/
def scanStop [DecidableEq Stop] (tt : Timetable Stop Route Trip) (pt : Stop) (k : K)
    (route : Route) (s : ScanState Stop Route Trip) (pi : Stop) :
    ScanState Stop Route Trip :=
  boardUpdate tt k route (relaxStep tt pt k route s pi) pi

/-- Stage 2 (lines 127-155): scan each route of `Q` in order, starting
each scan with `current_trip = None` and `boarding_stop = p`. -/
def stage2 [DecidableEq Stop] (tt : Timetable Stop Route Trip) (pt : Stop) (k : K)
    (q : List (Route × Stop)) (st : RState Stop Route) : RState Stop Route :=
  q.foldl
    (fun st rp =>
      ((tt.get_stops_after rp.1 rp.2).foldl (scanStop tt pt k rp.1)
        { current_trip := none, boarding_stop := rp.2, st := st }).st)
    st

/-- The Stage-3 candidate: the new per-round label of a footpath target
`p_dash`, `min` of its old label and the walking candidate (lines
161-171).  The addition is release-mode wrapping `usize` addition. -/
def stage3Candidate (old_p_dash stop_label walk : Tau) : Tau :=
  min old_p_dash (usizeAdd stop_label walk)

/-- The body of the inner footpath loop of Stage 3 (lines 160-174):
relabel `p_dash` and push it onto `more_marked_stops`. -/
def footStep (tt : Timetable Stop Route Trip) (k : K) (stop : Stop)
    [DecidableEq Stop] (acc : RState Stop Route × List Stop) (p_dash : Stop) :
    RState Stop Route × List Stop :=
  let st := acc.1
  let tau := stage3Candidate
    ((alookup st.best_arrival_per_k (k, p_dash)).getD tauMax)
    ((alookup st.best_arrival_per_k (k, stop)).getD tauMax)
    (tt.get_transfer_time stop p_dash)
  ({ st with best_arrival_per_k := ((k, p_dash), tau) :: st.best_arrival_per_k },
   acc.2 ++ [p_dash])

/-- The two nested loops of Stage 3 (lines 158-175), producing the
relabelled state and `more_marked_stops`. -/
def stage3Core [DecidableEq Stop] (tt : Timetable Stop Route Trip) (k : K)
    (st : RState Stop Route) : RState Stop Route × List Stop :=
  st.marked_stops.foldl
    (fun acc stop => (tt.get_footpaths_from stop).foldl (footStep tt k stop) acc)
    (st, [])

/-- Stage 3 (lines 157-177): footpath relaxation followed by
`marked_stops.extend(&more_marked_stops)`. -/
def stage3 [DecidableEq Stop] (tt : Timetable Stop Route Trip) (k : K)
    (st : RState Stop Route) : RState Stop Route :=
  let res := stage3Core tt k st
  { res.1 with marked_stops := res.2.foldl (fun m s => setInsert tt.stopLt s m) res.1.marked_stops }

/-- One round `k` of the main loop (lines 113-178): Stage 1, clearing
of `marked_stops`, Stage 2, Stage 3. -/
def roundStep [DecidableEq Stop] (tt : Timetable Stop Route Trip) (pt : Stop) (k : K)
    (st : RState Stop Route) : RState Stop Route :=
  let q := stage1 tt st.marked_stops
  let st := { st with marked_stops := [] }
  let st := stage2 tt pt k q st
  stage3 tt k st

/-- The round loop with the early exit of lines 179-181: stop as soon
as `marked_stops` is empty at the end of a round. -/
def loopBreak [DecidableEq Stop] (tt : Timetable Stop Route Trip) (pt : Stop) :
    List K → RState Stop Route → RState Stop Route
  | [], st => st
  | k :: rest, st =>
    let st' := roundStep tt pt k st
    if st'.marked_stops.isEmpty then st' else loopBreak tt pt rest st'

/-- The backward trace of `reconstruct_journey` for one value of `k`
(lines 38-51): follow the boarding tree from `pt` while counting
`inner_k` down, stopping at `ps` or on a missing tree entry; returns
the accumulated plan (in push order) and the final `parent`. -/
def traceBack [DecidableEq Stop] (tree : List ((K × Stop) × (Stop × Route))) (ps : Stop) :
    K → Stop → List (Route × Stop) → List (Route × Stop) × Stop
  | 0, parent, plan => (plan, parent)
  | inner_k + 1, parent, plan =>
    if parent = ps then (plan, parent)
    else
      match alookup tree (inner_k + 1, parent) with
      | none => (plan, parent)
      | some (stop, route) => traceBack tree ps inner_k stop (plan ++ [(route, stop)])

/-- `reconstruct_journey` of `src/lib.rs` (lines 18-60). -/
def reconstruct_journey [DecidableEq Stop] (tree : List ((K × Stop) × (Stop × Route)))
    (ps pt : Stop) (transfers : K) : List (List (Route × Stop)) :=
  if tree.isEmpty then []
  else
    (List.range' 1 transfers).foldl
      (fun plans k =>
        let res := traceBack tree ps k pt []
        if ¬res.1.isEmpty ∧ res.2 = ps then plans ++ [res.1.reverse] else plans)
      []

/-- The state at the end of the round loop of `Timetable::raptor`. -/
def raptorFinal [DecidableEq Stop] (tt : Timetable Stop Route Trip)
    (transfers : K) (tau : Tau) (ps pt : Stop) : RState Stop Route :=
  loopBreak tt pt (List.range' 1 transfers) (initState ps tau)

/-- `Timetable::raptor` (lines 93-194).  The final
`best_arrival_per_k.get(&(plan.len(), pt)).unwrap()` is a fallible
lookup: `none` models the `unwrap` panic. -/
def raptor [DecidableEq Stop] (tt : Timetable Stop Route Trip)
    (transfers : K) (tau : Tau) (ps pt : Stop) : Option (List (Journey Route Stop)) :=
  let final := raptorFinal tt transfers tau ps pt
  let plans := reconstruct_journey final.board_detail_per_k ps pt transfers
  plans.mapM (fun plan =>
    (alookup final.best_arrival_per_k (plan.length, pt)).map
      (fun arrival => { plan := plan, arrival := arrival }))

/-! ## The `Issue1Timetable` of `examples/reconstruction_bugs.rs` -/

/-- The three routes `"R1" < "R2" < "R3"` of `Issue1Timetable`
(`&'static str` route ids, embedded as an enumeration with the string
order). -/
inductive IRoute | R1 | R2 | R3
deriving DecidableEq, Repr

/-- The string order on the route ids. -/
def IRoute.idx : IRoute → Nat
  | .R1 => 0 | .R2 => 1 | .R3 => 2

/-- The stop order of a route of `Issue1Timetable`. -/
def issue1Order : IRoute → List Char
  | .R1 => ['S', 'A']
  | .R2 => ['S', 'B']
  | .R3 => ['A', 'B', 'C', 'D']

/-- `Issue1Timetable` of `examples/reconstruction_bugs.rs`:
`Stop = char`, `Route = &'static str`, `Trip = u32`
(trip ids 10 = R1, 20 = R2, 31 = R3/T1 late, 32 = R3/T2 early). -/
def issue1TT : Timetable Char IRoute Nat where
  stopLt a b := a < b
  routeLt a b := a.idx < b.idx
  get_routes_serving_stop stop :=
    match stop with
    | 'S' => [.R1, .R2]
    | 'A' => [.R1, .R3]
    | 'B' => [.R2, .R3]
    | 'C' => [.R3]
    | 'D' => [.R3]
    | _ => []
  get_earlier_stop route left right :=
    let order := issue1Order route
    let l := (order.indexOf? left).getD 99
    let r := (order.indexOf? right).getD 99
    (order.get? (min l r)).getD left
  get_stops_after route stop :=
    let order := issue1Order route
    let pos := (order.indexOf? stop).getD 0
    order.drop pos
  get_earliest_trip route at_ stop :=
    match route with
    | .R1 =>
      match stop with
      | 'S' => if at_ ≤ 0 then some 10 else none
      | 'A' => if at_ ≤ 100 then some 10 else none
      | _ => none
    | .R2 =>
      match stop with
      | 'S' => if at_ ≤ 0 then some 20 else none
      | 'B' => if at_ ≤ 30 then some 20 else none
      | _ => none
    | .R3 =>
      match stop with
      | 'A' => if at_ ≤ 25 then some 32 else if at_ ≤ 105 then some 31 else none
      | 'B' => if at_ ≤ 30 then some 32 else if at_ ≤ 110 then some 31 else none
      | 'C' => if at_ ≤ 40 then some 32 else if at_ ≤ 120 then some 31 else none
      | 'D' => if at_ ≤ 50 then some 32 else if at_ ≤ 130 then some 31 else none
      | _ => none
  get_arrival_time trip stop :=
    match trip, stop with
    | 10, 'A' => 100
    | 20, 'B' => 30
    | 31, 'B' => 110
    | 31, 'C' => 120
    | 31, 'D' => 130
    | 32, 'B' => 30
    | 32, 'C' => 40
    | 32, 'D' => 50
    | _, _ => tauMax
  get_departure_time trip stop :=
    match trip, stop with
    | 10, 'S' => 0
    | 20, 'S' => 0
    | 31, 'A' => 105
    | 31, 'B' => 110
    | 31, 'C' => 120
    | 32, 'A' => 25
    | 32, 'B' => 30
    | 32, 'C' => 40
    | _, _ => tauMax
  get_footpaths_from _ := []


/-! ## Helper readings of the query state -/

/-- The per-round label `τ*[k, s]`, reading an absent entry as the
sentinel `∞`, exactly as the engine's `unwrap_or(&Tau::MAX)` does. -/
def labelAt (st : RState Stop Route) [DecidableEq Stop] (k : K) (s : Stop) : Tau :=
  (alookup st.best_arrival_per_k (k, s)).getD tauMax

/-- The best arrival at `s` over rounds `0 … k` of a final state: the
cumulative reading of the sparse per-round labels. -/
def bestUpTo (st : RState Stop Route) [DecidableEq Stop] (s : Stop) : K → Tau
  | 0 => labelAt st 0 s
  | k + 1 => min (bestUpTo st s k) (labelAt st (k + 1) s)

/-! ## A one-route network with footpaths, for the Stage-3 and
initialization claims -/

/-- The single route of `footTT`. -/
inductive FRoute | FR
deriving DecidableEq, Repr

/-- A three-stop network: route `FR = P → Q` with one trip
(`dep(P) = 0`, `arr(Q) = 10`), footpaths `P → F` and `Q → F`, and the
default walking time `1`. -/
def footTT : Timetable Char FRoute Nat where
  stopLt a b := a < b
  routeLt _ _ := false
  get_routes_serving_stop stop :=
    match stop with
    | 'P' => [.FR]
    | 'Q' => [.FR]
    | _ => []
  get_earlier_stop _ left right :=
    let order := ['P', 'Q']
    let l := (order.indexOf? left).getD 99
    let r := (order.indexOf? right).getD 99
    (order.get? (min l r)).getD left
  get_stops_after _ stop :=
    let order := ['P', 'Q']
    let pos := (order.indexOf? stop).getD 0
    order.drop pos
  get_earliest_trip _ at_ stop :=
    match stop with
    | 'P' => if at_ ≤ 0 then some 0 else none
    | 'Q' => if at_ ≤ 10 then some 0 else none
    | _ => none
  get_arrival_time trip stop :=
    match trip, stop with
    | 0, 'Q' => 10
    | _, _ => tauMax
  get_departure_time trip stop :=
    match trip, stop with
    | 0, 'P' => 0
    | 0, 'Q' => 10
    | _, _ => tauMax
  get_footpaths_from stop :=
    match stop with
    | 'P' => ['F']
    | 'Q' => ['F']
    | _ => []

/-! ## A network whose Stage-3 addition overflows -/

/-- Like `footTT` but with the trip reaching `Q` at `usize::MAX - 1`
and a walking time of `2`: the Stage-3 candidate `(MAX - 1) + 2` wraps
around. -/
def overflowTT : Timetable Char FRoute Nat where
  stopLt a b := a < b
  routeLt _ _ := false
  get_routes_serving_stop stop :=
    match stop with
    | 'P' => [.FR]
    | 'Q' => [.FR]
    | _ => []
  get_earlier_stop _ left right :=
    let order := ['P', 'Q']
    let l := (order.indexOf? left).getD 99
    let r := (order.indexOf? right).getD 99
    (order.get? (min l r)).getD left
  get_stops_after _ stop :=
    let order := ['P', 'Q']
    let pos := (order.indexOf? stop).getD 0
    order.drop pos
  get_earliest_trip _ at_ stop :=
    match stop with
    | 'P' => if at_ ≤ 0 then some 0 else none
    | 'Q' => if at_ ≤ tauMax - 1 then some 0 else none
    | _ => none
  get_arrival_time trip stop :=
    match trip, stop with
    | 0, 'Q' => tauMax - 1
    | _, _ => tauMax
  get_departure_time trip stop :=
    match trip, stop with
    | 0, 'P' => 0
    | 0, 'Q' => tauMax - 1
    | _, _ => tauMax
  get_footpaths_from stop :=
    match stop with
    | 'Q' => ['F']
    | _ => []
  get_transfer_time _ _ := 2

/-! ## Finiteness of the labels feeding the Stage-3 addition -/

/-- Every stored global best label is strictly below the sentinel. -/
def BestFinite [DecidableEq Stop] (best : List (Stop × Tau)) : Prop :=
  ∀ (s : Stop) (v : Tau), alookup best s = some v → v < tauMax

/-- Every marked stop carries a present round-`k` label strictly below
the sentinel — the left operand of the Stage-3 walk addition. -/
def MarkedFinite [DecidableEq Stop] (k : K) (st : RState Stop Route) : Prop :=
  ∀ s ∈ st.marked_stops,
    ∃ v, alookup st.best_arrival_per_k (k, s) = some v ∧ v < tauMax

/-! ## The GTFS feed adapter (`src/gtfs.rs`) -/

abbrev StopIdx := Nat
abbrev PatternIdx := Nat
abbrev TripIdx := Nat

/-- `StopTime` of `src/gtfs.rs` (u32 times embedded as `Nat`). -/
structure GStopTime where
  arrival : Nat
  departure : Nat
deriving DecidableEq, Repr

/-- `Pattern` of `src/gtfs.rs`; the `HashMap<StopIdx, usize>`
`stop_positions` is embedded as an association list (only read through
`get`). -/
structure GPattern where
  stops : List StopIdx
  stop_positions : List (StopIdx × Nat)
  trips : List TripIdx
  departures_by_stop : List (List (Nat × TripIdx))
deriving Repr

/-- The index structures of `GtfsTimetable` that its `Timetable`
implementation reads (the string-id maps are not needed by it). -/
structure GtfsTimetableData where
  patterns : List GPattern
  stop_to_patterns : List (List (PatternIdx × Nat))
  trip_stop_times : List GStopTime
  pattern_offsets : List Nat
  trip_info : List (PatternIdx × Nat)
deriving Repr

/-- A placeholder pattern for the `self.patterns[route as usize]`
indexing: on an out-of-range route index the Rust code panics; the
adapter never produces such an index, and the embedding reads the
empty pattern there. -/
def GPattern.empty : GPattern :=
  { stops := [], stop_positions := [], trips := [], departures_by_stop := [] }

/-- `impl Timetable for GtfsTimetable` (`src/gtfs.rs` lines 284-376).
`get_transfer_time` is not implemented there, so the trait default
applies.  Out-of-bounds indexing (a Rust panic, unreachable on
adapter-built data) is embedded as a default read; `partition_point`
on the sorted departures list is embedded as `takeWhile` length, which
agrees with binary search on partitioned data. -/
def gtfsTimetable (d : GtfsTimetableData) : Timetable StopIdx PatternIdx TripIdx where
  stopLt a b := a < b
  routeLt a b := a < b
  get_routes_serving_stop stop :=
    ((d.stop_to_patterns.get? stop).map (fun patterns => patterns.map Prod.fst)).getD []
  get_earlier_stop route left right :=
    let pattern := (d.patterns.get? route).getD GPattern.empty
    match alookup pattern.stop_positions left, alookup pattern.stop_positions right with
    | some l, some r => (pattern.stops.get? (min l r)).getD left
    | some _, none => left
    | none, some _ => right
    | none, none => left
  get_stops_after route stop :=
    let pattern := (d.patterns.get? route).getD GPattern.empty
    ((alookup pattern.stop_positions stop).map (fun pos => pattern.stops.drop pos)).getD []
  get_earliest_trip route at_ stop :=
    let pattern := (d.patterns.get? route).getD GPattern.empty
    (alookup pattern.stop_positions stop).bind (fun stop_pos =>
      let departures := (pattern.departures_by_stop.get? stop_pos).getD []
      let at32 := at_ % 4294967296
      let pos := (departures.takeWhile (fun dep => dep.1 < at32)).length
      (departures.get? pos).map Prod.snd)
  get_arrival_time trip stop :=
    let info := (d.trip_info.get? trip).getD (0, 0)
    let pattern := (d.patterns.get? info.1).getD GPattern.empty
    match alookup pattern.stop_positions stop with
    | none => tauMax
    | some stop_pos =>
      let base := (d.pattern_offsets.get? info.1).getD 0
      let idx := base + info.2 * pattern.stops.length + stop_pos
      ((d.trip_stop_times.get? idx).getD { arrival := 0, departure := 0 }).arrival
  get_departure_time trip stop :=
    let info := (d.trip_info.get? trip).getD (0, 0)
    let pattern := (d.patterns.get? info.1).getD GPattern.empty
    match alookup pattern.stop_positions stop with
    | none => tauMax
    | some stop_pos =>
      let base := (d.pattern_offsets.get? info.1).getD 0
      let idx := base + info.2 * pattern.stops.length + stop_pos
      ((d.trip_stop_times.get? idx).getD { arrival := 0, departure := 0 }).departure
  get_footpaths_from _ := []

/-- A `GtfsTimetable` built from a feed with no data at all. -/
def emptyGtfs : GtfsTimetableData :=
  { patterns := [], stop_to_patterns := [], trip_stop_times := [],
    pattern_offsets := [], trip_info := [] }

/-! ## The engine variant without the early exit, for the
early-exit-soundness comparison -/

/-- The round loop run for all rounds, without the `break` of lines
179-181 (the comparison engine of the early-exit-soundness claim). -/
def loopAll [DecidableEq Stop] (tt : Timetable Stop Route Trip) (pt : Stop) :
    List K → RState Stop Route → RState Stop Route
  | [], st => st
  | k :: rest, st => loopAll tt pt rest (roundStep tt pt k st)

/-- `Timetable::raptor` with the early exit removed: identical except
that every one of the `k_max` rounds is executed. -/
def raptorNoBreak [DecidableEq Stop] (tt : Timetable Stop Route Trip)
    (transfers : K) (tau : Tau) (ps pt : Stop) : Option (List (Journey Route Stop)) :=
  let final := loopAll tt pt (List.range' 1 transfers) (initState ps tau)
  let plans := reconstruct_journey final.board_detail_per_k ps pt transfers
  plans.mapM (fun plan =>
    (alookup final.best_arrival_per_k (plan.length, pt)).map
      (fun arrival => { plan := plan, arrival := arrival }))

/-! ## The S3 scenario: two disjoint routes -/

/-- The two disjoint routes of the unreachability scenario. -/
inductive SRoute | RA | RB
deriving DecidableEq, Repr

/-- Order on the S3 route ids. -/
def SRoute.idx : SRoute → Nat
  | .RA => 0 | .RB => 1

/-- Two disjoint routes: `RA` through stops `0 → 1` (one trip,
`dep(0) = 5`, `arr(1) = 10`) and `RB` through stops `2 → 3` (one trip,
`dep(2) = 5`, `arr(3) = 10`); no footpaths.  Stops `0` and `3` lie on
different routes with no connection. -/
def s3TT : Timetable Nat SRoute Nat where
  stopLt a b := a < b
  routeLt a b := a.idx < b.idx
  get_routes_serving_stop stop :=
    match stop with
    | 0 => [.RA] | 1 => [.RA] | 2 => [.RB] | 3 => [.RB] | _ => []
  get_earlier_stop r left right :=
    let order := match r with | .RA => [0, 1] | .RB => [2, 3]
    let l := (order.indexOf? left).getD 99
    let rr := (order.indexOf? right).getD 99
    (order.get? (min l rr)).getD left
  get_stops_after r stop :=
    match r with
    | .RA => [0, 1].drop (([0, 1].indexOf? stop).getD 0)
    | .RB => [2, 3].drop (([2, 3].indexOf? stop).getD 0)
  get_earliest_trip r at_ stop :=
    match r, stop with
    | .RA, 0 => if at_ ≤ 5 then some 0 else none
    | .RA, 1 => if at_ ≤ 10 then some 0 else none
    | .RB, 2 => if at_ ≤ 5 then some 1 else none
    | .RB, 3 => if at_ ≤ 10 then some 1 else none
    | _, _ => none
  get_arrival_time trip stop :=
    match trip, stop with
    | 0, 0 => 5 | 0, 1 => 10 | 1, 2 => 5 | 1, 3 => 10 | _, _ => tauMax
  get_departure_time trip stop :=
    match trip, stop with
    | 0, 0 => 5 | 0, 1 => 10 | 1, 2 => 5 | 1, 3 => 10 | _, _ => tauMax
  get_footpaths_from _ := []

/-! ## A timetable on which the final arrival `unwrap` panics -/

/-- The three routes of `cexTT`. -/
inductive CRoute | RSD | RSX | RXS
deriving DecidableEq, Repr

/-- Order on the `cexTT` route ids. -/
def CRoute.idx : CRoute → Nat
  | .RSD => 0 | .RSX => 1 | .RXS => 2

/-- Stops `0 = S`, `1 = X`, `2 = D`.  Routes: `RSD : S → D` (trip 2,
`dep(S) = arr(S) = 20`, `arr(D) = dep(D) = 30`), `RSX : S → X` (trip 0,
`dep(S) = 50`, `arr(X) = 10`), `RXS : X → S` (trip 1, `dep(X) = 10`,
`arr(S) = 15`).  With query `(k_max = 3, τ_dep = 50, S → D)`, the trip
on `RSD` is not catchable in round 1 (`50 > 20`), but `S` is re-reached
at `τ = 15` in round 2 via `X`, so round 3 boards it and reaches `D`
with a plan of length 1 — whose arrival lookup at `(1, D)` has no
label. -/
def cexTT : Timetable Nat CRoute Nat where
  stopLt a b := a < b
  routeLt a b := a.idx < b.idx
  get_routes_serving_stop stop :=
    match stop with
    | 0 => [.RSD, .RSX, .RXS] | 1 => [.RSX, .RXS] | 2 => [.RSD] | _ => []
  get_earlier_stop r left right :=
    let order := match r with | .RSD => [0, 2] | .RSX => [0, 1] | .RXS => [1, 0]
    let l := (order.indexOf? left).getD 99
    let rr := (order.indexOf? right).getD 99
    (order.get? (min l rr)).getD left
  get_stops_after r stop :=
    match r, stop with
    | .RSD, 0 => [0, 2] | .RSD, 2 => [2]
    | .RSX, 0 => [0, 1] | .RSX, 1 => [1]
    | .RXS, 1 => [1, 0] | .RXS, 0 => [0]
    | _, _ => []
  get_earliest_trip r at_ stop :=
    match r, stop with
    | .RSD, 0 => if at_ ≤ 20 then some 2 else none
    | .RSD, 2 => if at_ ≤ 30 then some 2 else none
    | .RSX, 0 => if at_ ≤ 50 then some 0 else none
    | .RSX, 1 => if at_ ≤ 10 then some 0 else none
    | .RXS, 1 => if at_ ≤ 10 then some 1 else none
    | .RXS, 0 => if at_ ≤ 15 then some 1 else none
    | _, _ => none
  get_arrival_time trip stop :=
    match trip, stop with
    | 0, 0 => 50 | 0, 1 => 10
    | 1, 1 => 10 | 1, 0 => 15
    | 2, 0 => 20 | 2, 2 => 30
    | _, _ => tauMax
  get_departure_time trip stop :=
    match trip, stop with
    | 0, 0 => 50 | 0, 1 => 10
    | 1, 1 => 10 | 1, 0 => 15
    | 2, 0 => 20 | 2, 2 => 30
    | _, _ => tauMax
  get_footpaths_from _ := []

/-- The §4.1 guarantees the engine relies on, formalized over the
trait's surface: `stops_after(r, s)` starts with `s` when non-empty,
`arr(trip, s) ≤ dep(trip, s)`, and `earliest_trip` returns a trip
departing no earlier than the requested time, monotonically in it.
Non-overtaking quantifies over the trips of a route, which the trait
does not expose; its engine-facing consequence is exactly the
monotonicity of `earliest_trip` stated here (and it holds trivially for
timetables with one trip per route). -/
structure Guarantees (tt : Timetable Stop Route Trip) : Prop where
  stops_after_head : ∀ r s, tt.get_stops_after r s ≠ [] →
    (tt.get_stops_after r s).head? = some s
  dep_ge_arr : ∀ trip s, tt.get_arrival_time trip s ≤ tt.get_departure_time trip s
  earliest_trip_ge : ∀ r τ s trip, tt.get_earliest_trip r τ s = some trip →
    τ ≤ tt.get_departure_time trip s
  earliest_trip_mono : ∀ r s τ1 τ2, τ1 ≤ τ2 →
    ∀ trip, tt.get_earliest_trip r τ2 s = some trip →
      ∃ trip1, tt.get_earliest_trip r τ1 s = some trip1 ∧
        tt.get_departure_time trip1 s ≤ tt.get_departure_time trip s

/-! ## Theorems settling the claims -/

/-- C1: on the S4 network, `raptor(3, 0, S, D)` returns exactly one
journey, with arrival `50` and plan `[(R2, S), (R3, B)]`, and the
regression plan `[(R1, S), (R3, A)]` is not produced: the boarding
trace records the stop at which the held trip was actually boarded. -/
theorem issue1_raptor_correct :
    raptor issue1TT 3 0 'S' 'D' =
      some [{ plan := [(IRoute.R2, 'S'), (IRoute.R3, 'B')], arrival := 50 }] ∧
    ∀ js, raptor issue1TT 3 0 'S' 'D' = some js →
      ∀ j ∈ js, j.plan ≠ [(IRoute.R1, 'S'), (IRoute.R3, 'A')] := by
  refine ⟨by decide, ?_⟩
  intro js hjs j hj
  have h : js = [{ plan := [(IRoute.R2, 'S'), (IRoute.R3, 'B')], arrival := 50 }] := by
    have : raptor issue1TT 3 0 'S' 'D' =
        some [{ plan := [(IRoute.R2, 'S'), (IRoute.R3, 'B')], arrival := 50 }] := by decide
    rw [this] at hjs
    exact ((Option.some.injEq _ _).mp hjs).symm
  subst h
  simp only [List.mem_singleton] at hj
  subst hj
  decide

/-- One footpath loop leaves `best_arrival`, the boarding tree and
`marked_stops` unchanged, and appends its footpath targets to
`more_marked_stops` in order. -/
theorem footStep_fold_state [DecidableEq Stop] (tt : Timetable Stop Route Trip)
    (k : K) (stop : Stop) (fps : List Stop) :
    ∀ acc : RState Stop Route × List Stop,
      (fps.foldl (footStep tt k stop) acc).1.best_arrival = acc.1.best_arrival ∧
      (fps.foldl (footStep tt k stop) acc).1.board_detail_per_k = acc.1.board_detail_per_k ∧
      (fps.foldl (footStep tt k stop) acc).1.marked_stops = acc.1.marked_stops ∧
      (fps.foldl (footStep tt k stop) acc).2 = acc.2 ++ fps := by
  induction fps with
  | nil => intro acc; simp
  | cons pd rest ih =>
    intro acc
    have h := ih (footStep tt k stop acc pd)
    simp only [List.foldl_cons]
    refine ⟨?_, ?_, ?_, ?_⟩
    · rw [h.1]; rfl
    · rw [h.2.1]; rfl
    · rw [h.2.2.1]; rfl
    · rw [h.2.2.2]; simp [footStep]

/-- The Stage-3 double loop leaves `best_arrival`, the boarding tree
and `marked_stops` unchanged and collects every footpath target of the
iterated stops into `more_marked_stops`, in order and unconditionally. -/
theorem stage3Core_fold_state [DecidableEq Stop] (tt : Timetable Stop Route Trip)
    (k : K) (ms : List Stop) :
    ∀ acc : RState Stop Route × List Stop,
      (ms.foldl (fun acc stop => (tt.get_footpaths_from stop).foldl (footStep tt k stop) acc)
          acc).1.best_arrival = acc.1.best_arrival ∧
      (ms.foldl (fun acc stop => (tt.get_footpaths_from stop).foldl (footStep tt k stop) acc)
          acc).1.board_detail_per_k = acc.1.board_detail_per_k ∧
      (ms.foldl (fun acc stop => (tt.get_footpaths_from stop).foldl (footStep tt k stop) acc)
          acc).1.marked_stops = acc.1.marked_stops ∧
      (ms.foldl (fun acc stop => (tt.get_footpaths_from stop).foldl (footStep tt k stop) acc)
          acc).2 = acc.2 ++ ms.flatMap tt.get_footpaths_from := by
  induction ms with
  | nil => intro acc; simp
  | cons m rest ih =>
    intro acc
    have hfoot := footStep_fold_state tt k m (tt.get_footpaths_from m) acc
    have h := ih ((tt.get_footpaths_from m).foldl (footStep tt k m) acc)
    simp only [List.foldl_cons]
    refine ⟨?_, ?_, ?_, ?_⟩
    · rw [h.1, hfoot.1]
    · rw [h.2.1, hfoot.2.1]
    · rw [h.2.2.1, hfoot.2.2.1]
    · rw [h.2.2.2, hfoot.2.2.2]; simp [List.flatMap]

/-- C2 (amended): in Stage 3 the per-round label of a footpath target
becomes `min(τ*[k, s′], τ*[k, s] + transfer_time(s, s′))` (so it is
lowered to the candidate exactly when the candidate beats it), but the
marked set receives every footpath target unconditionally — improving
or not — and the global best label `τ*[s′]` is never touched by
Stage 3 (nor is the boarding trace). -/
theorem stage3_behavior [DecidableEq Stop] (tt : Timetable Stop Route Trip)
    (k : K) (st : RState Stop Route) :
    (stage3Core tt k st).2 = st.marked_stops.flatMap tt.get_footpaths_from ∧
    (stage3 tt k st).best_arrival = st.best_arrival ∧
    (stage3 tt k st).board_detail_per_k = st.board_detail_per_k ∧
    ∀ (stop p_dash : Stop) (acc : RState Stop Route × List Stop),
      alookup ((footStep tt k stop acc p_dash).1.best_arrival_per_k) (k, p_dash) =
        some (stage3Candidate (labelAt acc.1 k p_dash) (labelAt acc.1 k stop)
          (tt.get_transfer_time stop p_dash)) := by
  have h := stage3Core_fold_state tt k st.marked_stops (st, [])
  refine ⟨by simpa [stage3Core] using h.2.2.2, ?_, ?_, ?_⟩
  · show (stage3Core tt k st).1.best_arrival = st.best_arrival
    simpa [stage3Core] using h.1
  · show (stage3Core tt k st).1.board_detail_per_k = st.board_detail_per_k
    simpa [stage3Core] using h.2.1
  · intro stop p_dash acc
    simp [footStep, alookup, labelAt]

/-- C2 counterexample: after the one-round run of `footTT` from `P`
towards `F`, the Stage-3 candidate `11 = τ*[1, Q] + 1` did improve
`τ*[1, F]` (which was `∞`), yet the global best label of `F` was not
lowered to it — it is still absent, contradicting
`τ*[s′] ← min(τ*[s′], candidate)`. -/
theorem stage3_cex :
    labelAt (raptorFinal footTT 1 0 'P' 'F') 1 'F' = 11 ∧
    alookup (raptorFinal footTT 1 0 'P' 'F').best_arrival 'F' = none ∧
    ¬ ((alookup (raptorFinal footTT 1 0 'P' 'F').best_arrival 'F').getD tauMax = 11) := by
  decide

/-- C3 (amended): immediately after initialization the round-0 label
of `p_s` is `τ_dep` and it is the only label present; the global best
map is empty — even `τ*[p_s]` reads `∞` — the boarding trace is empty,
only `p_s` is marked, and no round-0 footpath relaxation is applied. -/
theorem initState_spec {Stop Route : Type} [DecidableEq Stop] (ps : Stop) (tau : Tau) :
    alookup (initState ps tau : RState Stop Route).best_arrival_per_k (0, ps) = some tau ∧
    (initState ps tau : RState Stop Route).best_arrival = [] ∧
    (initState ps tau : RState Stop Route).board_detail_per_k = [] ∧
    (initState ps tau : RState Stop Route).marked_stops = [ps] ∧
    (∀ (k : K) (s : Stop), (k, s) ≠ ((0 : K), ps) →
      alookup (initState ps tau : RState Stop Route).best_arrival_per_k (k, s) = none) := by
  refine ⟨by simp [initState, alookup], rfl, rfl, rfl, ?_⟩
  intro k s h
  simp [initState, alookup, h]

/-- Witness for `initState_spec` at a concrete input. -/
theorem initState_spec_witness :
    alookup (initState 'S' 7 : RState Char IRoute).best_arrival_per_k (1, 'A') = none :=
  (initState_spec 'S' 7).2.2.2.2 1 'A' (by decide)

/-- C3 counterexample: with `footTT` and query source `P` at `τ_dep =
0`, right after initialization the global best label of `P` reads `∞`,
not `τ_dep`, and the foot-reachable stop `F` has no round-0 label at
all (the claimed `τ_dep + transfer_time(P, F) = 1` is absent). -/
theorem init_cex :
    footTT.get_footpaths_from 'P' = ['F'] ∧
    ¬ ((alookup (initState 'P' 0 : RState Char FRoute).best_arrival 'P').getD tauMax = 0) ∧
    ¬ (labelAt (initState 'P' 0 : RState Char FRoute) 0 'F' =
        0 + footTT.get_transfer_time 'P' 'F') := by
  decide

/-- C4 counterexample: at the end of the `Issue1Timetable` run the
source stop `S` has `τ*[0, S] = 0` but no round-1 label (`τ*[1, S]`
reads `∞`), so `τ*[1, S] ≤ τ*[0, S]` fails: per-round labels are
sparse, not copied forward, and not monotone across rounds. -/
theorem monotone_cex :
    labelAt (raptorFinal issue1TT 3 0 'S' 'D') 0 'S' = 0 ∧
    ¬ (labelAt (raptorFinal issue1TT 3 0 'S' 'D') 1 'S' ≤
       labelAt (raptorFinal issue1TT 3 0 'S' 'D') 0 'S') := by
  decide

/-- C4 (amended): monotonicity across rounds holds for the cumulative
reading of the labels: the best arrival over rounds `0 … k` never
exceeds the best arrival over rounds `0 … k-1`, for every stop of the
final state of every query. -/
theorem bestUpTo_mono [DecidableEq Stop] (tt : Timetable Stop Route Trip)
    (transfers : K) (tau : Tau) (ps pt s : Stop) (k : K) (hk : 1 ≤ k) :
    bestUpTo (raptorFinal tt transfers tau ps pt) s k ≤
      bestUpTo (raptorFinal tt transfers tau ps pt) s (k - 1) := by
  cases k with
  | zero => exact absurd hk (by norm_num)
  | succ j =>
    have h : bestUpTo (raptorFinal tt transfers tau ps pt) s (j + 1) =
        min (bestUpTo (raptorFinal tt transfers tau ps pt) s j)
          (labelAt (raptorFinal tt transfers tau ps pt) (j + 1) s) := rfl
    rw [h]

    exact min_le_left _ _

/-- Witness for `bestUpTo_mono` at a concrete input. -/
theorem bestUpTo_mono_witness :
    bestUpTo (raptorFinal issue1TT 3 0 'S' 'D') 'S' 1 ≤
      bestUpTo (raptorFinal issue1TT 3 0 'S' 'D') 'S' 0 :=
  bestUpTo_mono issue1TT 3 0 'S' 'D' 'S' 1 (by decide)

/-- Membership in an ordered-set insertion comes from the new element
or from the old set. -/
theorem mem_setInsert (lt : α → α → Bool) (a : α) (l : List α) :
    ∀ s ∈ setInsert lt a l, s = a ∨ s ∈ l := by
  induction l with
  | nil =>
    intro s hs
    unfold setInsert at hs
    exact Or.inl (List.mem_singleton.mp hs)
  | cons b rest ih =>
    intro s hs
    unfold setInsert at hs
    split at hs
    · simp only [List.mem_cons] at hs
      rcases hs with h | h | h
      · exact Or.inl h
      · exact Or.inr (by simp [h])
      · exact Or.inr (List.mem_cons_of_mem _ h)
    · split at hs
      · simp only [List.mem_cons] at hs
        rcases hs with h | h
        · exact Or.inr (by simp [h])
        · rcases ih s h with h' | h'
          · exact Or.inl h'
          · exact Or.inr (List.mem_cons_of_mem _ h')
      · exact Or.inr hs

/-- The board-update step does not change the query state. -/
theorem boardUpdate_st [DecidableEq Stop] (tt : Timetable Stop Route Trip) (k : K)
    (route : Route) (s : ScanState Stop Route Trip) (pi : Stop) :
    (boardUpdate tt k route s pi).st = s.st := by
  unfold boardUpdate
  dsimp only
  split <;> rfl

/-- The relaxation step keeps all stored global best labels finite and
keeps every marked stop's round-`k` label present and finite. -/
theorem relaxStep_finite [DecidableEq Stop] (tt : Timetable Stop Route Trip) (pt : Stop)
    (k : K) (route : Route) (s : ScanState Stop Route Trip) (pi : Stop)
    (hb : BestFinite s.st.best_arrival) (hm : MarkedFinite k s.st) :
    BestFinite (relaxStep tt pt k route s pi).st.best_arrival ∧
    MarkedFinite k (relaxStep tt pt k route s pi).st := by
  unfold relaxStep
  cases htr : s.current_trip with
  | none => exact ⟨hb, hm⟩
  | some trip =>
    dsimp only
    split
    · next harr =>
      have httb : min ((alookup s.st.best_arrival pi).getD tauMax)
          ((alookup s.st.best_arrival pt).getD tauMax) ≤ tauMax := by
        rcases h : alookup s.st.best_arrival pi with _ | v
        · simp [h]
        · refine le_trans (min_le_left _ _) ?_
          simp only [h, Option.getD_some]
          exact le_of_lt (hb pi v h)
      have harrfin : tt.get_arrival_time trip pi < tauMax := lt_of_lt_of_le harr httb
      constructor
      · intro s2 v hvl
        by_cases hsp : s2 = pi
        · rw [show alookup ((pi, tt.get_arrival_time trip pi) :: s.st.best_arrival) s2 =
              some (tt.get_arrival_time trip pi) by simp [alookup, hsp]] at hvl
          rw [← Option.some_inj.mp hvl]
          exact harrfin
        · rw [show alookup ((pi, tt.get_arrival_time trip pi) :: s.st.best_arrival) s2 =
              alookup s.st.best_arrival s2 by simp [alookup, hsp]] at hvl
          exact hb s2 v hvl
      · intro s2 hs2
        rcases mem_setInsert _ _ _ s2 hs2 with h | h
        · refine ⟨tt.get_arrival_time trip pi, ?_, harrfin⟩
          simp [alookup, h]
        · by_cases hk : ((k, s2) : K × Stop) = (k, pi)
          · refine ⟨tt.get_arrival_time trip pi, ?_, harrfin⟩
            simp [alookup, hk]
          · rcases hm s2 h with ⟨v, hv, hvfin⟩
            refine ⟨v, ?_, hvfin⟩
            rw [show alookup (((k, pi), tt.get_arrival_time trip pi) ::
                s.st.best_arrival_per_k) (k, s2) =
              alookup s.st.best_arrival_per_k (k, s2) by simp [alookup, hk]]
            exact hv
    · exact ⟨hb, hm⟩

/-- One route scan preserves the finiteness of the labels. -/
theorem scan_fold_finite [DecidableEq Stop] (tt : Timetable Stop Route Trip) (pt : Stop)
    (k : K) (route : Route) (stops : List Stop) :
    ∀ s : ScanState Stop Route Trip,
      BestFinite s.st.best_arrival → MarkedFinite k s.st →
      BestFinite (stops.foldl (scanStop tt pt k route) s).st.best_arrival ∧
      MarkedFinite k (stops.foldl (scanStop tt pt k route) s).st := by
  induction stops with
  | nil => intro s hb hm; exact ⟨hb, hm⟩
  | cons pi rest ih =>
    intro s hb hm
    have hrel := relaxStep_finite tt pt k route s pi hb hm
    have hstep : (scanStop tt pt k route s pi).st = (relaxStep tt pt k route s pi).st :=
      boardUpdate_st tt k route _ pi
    simp only [List.foldl_cons]
    exact ih (scanStop tt pt k route s pi) (hstep ▸ hrel.1) (hstep ▸ hrel.2)

/-- Stage 2 preserves the finiteness of the labels, whatever `Q` is. -/
theorem stage2_fold_finite [DecidableEq Stop] (tt : Timetable Stop Route Trip) (pt : Stop)
    (k : K) (q : List (Route × Stop)) :
    ∀ st : RState Stop Route,
      BestFinite st.best_arrival → MarkedFinite k st →
      BestFinite (stage2 tt pt k q st).best_arrival ∧
      MarkedFinite k (stage2 tt pt k q st) := by
  induction q with
  | nil => intro st hb hm; exact ⟨hb, hm⟩
  | cons rp rest ih =>
    intro st hb hm
    have h := scan_fold_finite tt pt k rp.1 (tt.get_stops_after rp.1 rp.2)
      { current_trip := none, boarding_stop := rp.2, st := st } hb hm
    simpa only [stage2, List.foldl_cons] using
      ih (((tt.get_stops_after rp.1 rp.2).foldl (scanStop tt pt k rp.1)
        { current_trip := none, boarding_stop := rp.2, st := st }).st) h.1 h.2

/-- C5 (amended): the Stage-3 candidate addition is release-mode
wrapping `usize` addition, not a saturating one — but the sentinel
never reaches it as the label operand: starting a round's Stage 2 from
the cleared marked set and finite global best labels (as in every run —
the global best map starts empty), every stop marked by Stage 2, i.e.
every stop whose label Stage 3 adds a walk time to, carries a present
round-`k` label strictly below `Tau::MAX`, and all global best labels
stay finite. -/
theorem stage2_no_sentinel [DecidableEq Stop] (tt : Timetable Stop Route Trip) (pt : Stop)
    (k : K) (q : List (Route × Stop)) (st : RState Stop Route)
    (hb : BestFinite st.best_arrival) (hm : st.marked_stops = []) :
    MarkedFinite k (stage2 tt pt k q st) ∧
    BestFinite (stage2 tt pt k q st).best_arrival ∧
    BestFinite (initState pt 0 : RState Stop Route).best_arrival := by
  have hm0 : MarkedFinite k st := by
    intro s hs
    rw [hm] at hs
    simp at hs
  have h := stage2_fold_finite tt pt k q st hb hm0
  refine ⟨h.2, h.1, ?_⟩
  intro s v hv
  simp [initState, alookup] at hv

/-- Witness for `stage2_no_sentinel` at a concrete input. -/
theorem stage2_no_sentinel_witness :
    MarkedFinite 1 (stage2 footTT 'F' 1 (stage1 footTT ['P'])
      { initState 'P' 0 with marked_stops := [] }) :=
  (stage2_no_sentinel footTT 'F' 1 (stage1 footTT ['P'])
    { initState 'P' 0 with marked_stops := [] }
    (by intro s v hv; simp [initState, alookup] at hv) rfl).1

/-- C5 counterexample: the Stage-3 candidate computation does not
saturate.  Adding the default walk time `1` to the sentinel yields `0`,
not the sentinel; and in an actual run (`overflowTT`, arrival
`Tau::MAX - 1` at `Q`, walk time `2`) the engine stores the wrapped
per-round label `0` for the footpath target `F`. -/
theorem sentinel_cex :
    stage3Candidate tauMax tauMax 1 = 0 ∧
    usizeAdd tauMax 1 = 0 ∧
    overflowTT.get_arrival_time 0 'Q' = tauMax - 1 ∧
    overflowTT.get_transfer_time 'Q' 'F' = 2 ∧
    labelAt (raptorFinal overflowTT 1 0 'P' 'F') 1 'F' = 0 := by
  decide

/-- Witness for `issue1_raptor_correct` at a concrete input. -/
theorem issue1_raptor_correct_witness :
    ({ plan := [(IRoute.R2, 'S'), (IRoute.R3, 'B')], arrival := 50 } :
        Journey IRoute Char).plan ≠ [(IRoute.R1, 'S'), (IRoute.R3, 'A')] :=
  issue1_raptor_correct.2
    [{ plan := [(IRoute.R2, 'S'), (IRoute.R3, 'B')], arrival := 50 }] (by decide)
    { plan := [(IRoute.R2, 'S'), (IRoute.R3, 'B')], arrival := 50 } (by decide)

/-- C6 (amended): the contract's default `transfer_time` is the
constant `1` for every pair, and the GTFS adapter does not override it
— its `transfer_time` is the trait default `1` for every pair of stop
indices and every feed, not 5 minutes. -/
theorem transfer_time_one {S : Type} (a b : S) (d : GtfsTimetableData) (x y : StopIdx) :
    default_transfer_time a b = 1 ∧
    (gtfsTimetable d).get_transfer_time x y = 1 :=
  ⟨rfl, rfl⟩

/-- C6 counterexample: on a feed with no data at all ("feed data
missing"), the adapter's `transfer_time` is `1`, not `300` seconds. -/
theorem transfer_time_cex :
    (gtfsTimetable emptyGtfs).get_transfer_time 0 1 = 1 ∧
    (gtfsTimetable emptyGtfs).get_transfer_time 0 1 ≠ 300 := by
  decide

/-- The backward trace started at the source itself stops immediately
with an empty plan. -/
theorem traceBack_self [DecidableEq Stop]
    (tree : List ((K × Stop) × (Stop × Route))) (p : Stop) (k : K)
    (plan : List (Route × Stop)) :
    traceBack tree p k p plan = (plan, p) := by
  cases k with
  | zero => rfl
  | succ inner_k => simp [traceBack]

/-- Reconstruction with source equal to target accepts no plan: every
trace ends at once with an empty plan, which `!plan.is_empty()`
rejects. -/
theorem reconstruct_self [DecidableEq Stop]
    (tree : List ((K × Stop) × (Stop × Route))) (p : Stop) (transfers : K) :
    reconstruct_journey tree p p transfers = [] := by
  unfold reconstruct_journey
  split
  · rfl
  · have h : ∀ (l : List K) (plans : List (List (Route × Stop))),
        l.foldl
          (fun plans k =>
            let res := traceBack tree p k p []
            if ¬res.1.isEmpty ∧ res.2 = p then plans ++ [res.1.reverse] else plans)
          plans = plans := by
      intro l
      induction l with
      | nil => intro plans; rfl
      | cons k rest ih =>
        intro plans
        rw [List.foldl_cons]
        simp only [traceBack_self tree p k [], List.isEmpty_nil]
        simp only [not_true, false_and, if_false]
        exact ih plans
    exact h _ []

/-- C9: for every Timetable, every `k_max`, every `τ_dep` and every
stop `p`, the query `raptor(k_max, τ_dep, p, p)` with source equal to
target returns the empty list (and no panic): the zero-hop journey is
never emitted, because reconstruction rejects empty plans. -/
theorem raptor_self [DecidableEq Stop] (tt : Timetable Stop Route Trip)
    (transfers : K) (tau : Tau) (p : Stop) :
    raptor tt transfers tau p p = some [] := by
  simp only [raptor, reconstruct_self]
  rfl

/-- A round that starts with no marked stops changes nothing: `Q` is
collected empty, Stage 2 scans nothing, Stage 3 relaxes nothing. -/
theorem roundStep_empty [DecidableEq Stop] (tt : Timetable Stop Route Trip)
    (pt : Stop) (k : K) (st : RState Stop Route) (h : st.marked_stops = []) :
    roundStep tt pt k st = st := by
  obtain ⟨a, b, c, m⟩ := st
  simp only at h
  subst h
  rfl

/-- Once the marked set is empty, any number of further rounds is a
no-op. -/
theorem loopAll_empty [DecidableEq Stop] (tt : Timetable Stop Route Trip)
    (pt : Stop) (l : List K) :
    ∀ st : RState Stop Route, st.marked_stops = [] → loopAll tt pt l st = st := by
  induction l with
  | nil => intro st _; rfl
  | cons k rest ih =>
    intro st h
    show loopAll tt pt rest (roundStep tt pt k st) = st
    rw [roundStep_empty tt pt k st h]
    exact ih st h

/-- The loop with the early exit computes the same final state as the
loop that runs every round. -/
theorem loopBreak_eq_loopAll [DecidableEq Stop] (tt : Timetable Stop Route Trip)
    (pt : Stop) (l : List K) :
    ∀ st : RState Stop Route, loopBreak tt pt l st = loopAll tt pt l st := by
  induction l with
  | nil => intro st; rfl
  | cons k rest ih =>
    intro st
    show (if (roundStep tt pt k st).marked_stops.isEmpty then roundStep tt pt k st
      else loopBreak tt pt rest (roundStep tt pt k st)) =
      loopAll tt pt rest (roundStep tt pt k st)
    by_cases h : (roundStep tt pt k st).marked_stops.isEmpty
    · rw [if_pos h, loopAll_empty tt pt rest _ (List.isEmpty_iff.mp h)]
    · rw [if_neg h]
      exact ih _

/-- C8: early-exit soundness — for every Timetable and query, the
engine that breaks out of the round loop as soon as the marked set is
empty returns exactly the same journeys as the engine run for all
`k_max` rounds without the break. -/
theorem early_exit_sound [DecidableEq Stop] (tt : Timetable Stop Route Trip)
    (transfers : K) (tau : Tau) (ps pt : Stop) :
    raptor tt transfers tau ps pt = raptorNoBreak tt transfers tau ps pt := by
  simp only [raptor, raptorNoBreak, raptorFinal, loopBreak_eq_loopAll]

/-- Consing a binding onto an association list preserves the presence
of every key. -/
theorem alookup_cons_isSome [DecidableEq α] (m : List (α × β)) (k2 : α) (v : β) (a : α)
    (h : (alookup m a).isSome = true) : (alookup ((k2, v) :: m) a).isSome = true := by
  by_cases ha : a = k2
  · simp [alookup, ha]
  · simpa [alookup, ha] using h

/-- `updateQ` keeps a route predicate over all queue entries. -/
theorem updateQ_routes (tt : Timetable Stop Route Trip) (r : Route) (m : Stop)
    (P : Route → Prop) (hP : P r) (q : List (Route × Stop)) (hq : ∀ rp ∈ q, P rp.1) :
    ∀ rp ∈ updateQ tt r m q, P rp.1 := by
  induction q with
  | nil =>
    intro rp hrp
    unfold updateQ at hrp
    rw [List.mem_singleton.mp hrp]
    exact hP
  | cons e rest ih =>
    intro rp hrp
    obtain ⟨r', p⟩ := e
    unfold updateQ at hrp
    split at hrp
    · rcases List.mem_cons.mp hrp with h | h
      · rw [h]; exact hP
      · exact hq rp h
    · split at hrp
      · rcases List.mem_cons.mp hrp with h | h
        · rw [h]; exact hq (r', p) (List.mem_cons_self _ _)
        · exact ih (fun rp' h' => hq rp' (List.mem_cons_of_mem _ h')) rp h
      · rcases List.mem_cons.mp hrp with h | h
        · rw [h]; exact hq (r', p) (List.mem_cons_self _ _)
        · exact hq rp (List.mem_cons_of_mem _ h)

/-- Every route placed into `Q` by Stage 1 serves a marked stop. -/
theorem stage1_routes (tt : Timetable Stop Route Trip) (marked : List Stop)
    (P : Route → Prop)
    (h : ∀ m ∈ marked, ∀ r ∈ tt.get_routes_serving_stop m, P r) :
    ∀ rp ∈ stage1 tt marked, P rp.1 := by
  unfold stage1
  have hgen : ∀ (ms : List Stop), (∀ m ∈ ms, ∀ r ∈ tt.get_routes_serving_stop m, P r) →
      ∀ (q0 : List (Route × Stop)), (∀ rp ∈ q0, P rp.1) →
      ∀ rp ∈ ms.foldl
        (fun q m => (tt.get_routes_serving_stop m).foldl (fun q r => updateQ tt r m q) q) q0,
        P rp.1 := by
    intro ms
    induction ms with
    | nil => intro _ q0 hq0 rp hrp; exact hq0 rp hrp
    | cons m rest ih =>
      intro hms q0 hq0
      have hinner : ∀ (rl : List Route), (∀ r ∈ rl, P r) →
          ∀ (q : List (Route × Stop)), (∀ rp ∈ q, P rp.1) →
          ∀ rp ∈ rl.foldl (fun q r => updateQ tt r m q) q, P rp.1 := by
        intro rl
        induction rl with
        | nil => intro _ q hq rp hrp; exact hq rp hrp
        | cons r rrest ihr =>
          intro hrl q hq
          rw [List.foldl_cons]
          exact ihr (fun r' h' => hrl r' (List.mem_cons_of_mem _ h'))
            (updateQ tt r m q)
            (updateQ_routes tt r m P (hrl r (List.mem_cons_self _ _)) q hq)
      rw [List.foldl_cons]
      exact ih (fun m' h' => hms m' (List.mem_cons_of_mem _ h')) _
        (hinner (tt.get_routes_serving_stop m)
          (hms m (List.mem_cons_self _ _)) q0 hq0)
  exact hgen marked h [] (by simp)

/-- A route scan only creates boarding-trace entries and marks at stops
of the scanned stop list. -/
theorem scan_fold_domain [DecidableEq Stop] (tt : Timetable Stop Route Trip) (pt : Stop)
    (k : K) (route : Route) (G : Stop → Prop) (stops : List Stop)
    (hstops : ∀ s ∈ stops, G s) :
    ∀ sc : ScanState Stop Route Trip,
      (∀ e ∈ sc.st.board_detail_per_k, G e.1.2) →
      (∀ s ∈ sc.st.marked_stops, G s) →
      (∀ e ∈ (stops.foldl (scanStop tt pt k route) sc).st.board_detail_per_k, G e.1.2) ∧
      (∀ s ∈ (stops.foldl (scanStop tt pt k route) sc).st.marked_stops, G s) := by
  induction stops with
  | nil => intro sc ht hm; exact ⟨ht, hm⟩
  | cons pi rest ih =>
    intro sc ht hm
    have hpi : G pi := hstops pi (List.mem_cons_self _ _)
    have hrel : (∀ e ∈ (relaxStep tt pt k route sc pi).st.board_detail_per_k, G e.1.2) ∧
        (∀ s ∈ (relaxStep tt pt k route sc pi).st.marked_stops, G s) := by
      unfold relaxStep
      cases sc.current_trip with
      | none => exact ⟨ht, hm⟩
      | some trip =>
        dsimp only
        split
        · constructor
          · intro e he
            rcases List.mem_cons.mp he with h | h
            · rw [h]; exact hpi
            · exact ht e h
          · intro s hs
            rcases mem_setInsert _ _ _ s hs with h | h
            · rw [h]; exact hpi
            · exact hm s h
        · exact ⟨ht, hm⟩
    have hstep : (scanStop tt pt k route sc pi).st = (relaxStep tt pt k route sc pi).st :=
      boardUpdate_st tt k route _ pi
    simp only [List.foldl_cons]
    exact ih (fun s h => hstops s (List.mem_cons_of_mem _ h))
      (scanStop tt pt k route sc pi) (hstep ▸ hrel.1) (hstep ▸ hrel.2)

/-- Stage 2 only creates boarding-trace entries and marks at stops
lying on the scanned suffixes of the queued routes. -/
theorem stage2_domain [DecidableEq Stop] (tt : Timetable Stop Route Trip) (pt : Stop)
    (k : K) (G : Stop → Prop) (q : List (Route × Stop))
    (hq : ∀ rp ∈ q, ∀ s ∈ tt.get_stops_after rp.1 rp.2, G s) :
    ∀ st : RState Stop Route,
      (∀ e ∈ st.board_detail_per_k, G e.1.2) →
      (∀ s ∈ st.marked_stops, G s) →
      (∀ e ∈ (stage2 tt pt k q st).board_detail_per_k, G e.1.2) ∧
      (∀ s ∈ (stage2 tt pt k q st).marked_stops, G s) := by
  induction q with
  | nil => intro st ht hm; exact ⟨ht, hm⟩
  | cons rp rest ih =>
    intro st ht hm
    have h := scan_fold_domain tt pt k rp.1 G (tt.get_stops_after rp.1 rp.2)
      (hq rp (List.mem_cons_self _ _))
      { current_trip := none, boarding_stop := rp.2, st := st } ht hm
    simpa only [stage2, List.foldl_cons] using
      ih (fun rp' h' => hq rp' (List.mem_cons_of_mem _ h')) _ h.1 h.2

/-- On a timetable without footpaths, Stage 3 is the identity. -/
theorem stage3_no_footpaths [DecidableEq Stop] (tt : Timetable Stop Route Trip)
    (hfp : ∀ s, tt.get_footpaths_from s = []) (k : K) (st : RState Stop Route) :
    stage3 tt k st = st := by
  have hcore : ∀ (ms : List Stop) (acc : RState Stop Route × List Stop),
      ms.foldl (fun acc stop => (tt.get_footpaths_from stop).foldl (footStep tt k stop) acc)
        acc = acc := by
    intro ms
    induction ms with
    | nil => intro acc; rfl
    | cons m rest ih =>
      intro acc
      rw [List.foldl_cons, hfp m]
      exact ih acc
  unfold stage3 stage3Core
  rw [hcore]
  rfl

/-- On `s3TT`, stops `0` and `1` are served only by route `RA`. -/
theorem s3_routes_RA (s : Nat) (h : s = 0 ∨ s = 1) :
    ∀ r ∈ s3TT.get_routes_serving_stop s, r = SRoute.RA := by
  rcases h with h | h <;> subst h <;> intro r hr <;> simpa [s3TT] using hr

/-- Every stop scanned on route `RA` of `s3TT` is `0` or `1`. -/
theorem s3_stops_after_RA (p : Nat) :
    ∀ s ∈ s3TT.get_stops_after SRoute.RA p, s = 0 ∨ s = 1 := by
  intro s hs
  simp only [s3TT] at hs
  have : s ∈ [0, 1] := List.drop_subset _ _ hs
  simpa using this

/-- One round of `s3TT` keeps all boarding-trace stops and all marked
stops inside the component `{0, 1}` of the source. -/
theorem s3_roundStep_inv (pt : Nat) (k : K) (st : RState Nat SRoute)
    (ht : ∀ e ∈ st.board_detail_per_k, e.1.2 = 0 ∨ e.1.2 = 1)
    (hm : ∀ s ∈ st.marked_stops, s = 0 ∨ s = 1) :
    (∀ e ∈ (roundStep s3TT pt k st).board_detail_per_k, e.1.2 = 0 ∨ e.1.2 = 1) ∧
    (∀ s ∈ (roundStep s3TT pt k st).marked_stops, s = 0 ∨ s = 1) := by
  have hq : ∀ rp ∈ stage1 s3TT st.marked_stops,
      ∀ s ∈ s3TT.get_stops_after rp.1 rp.2, s = 0 ∨ s = 1 := by
    intro rp hrp
    have hra : rp.1 = SRoute.RA :=
      stage1_routes s3TT st.marked_stops (fun r => r = SRoute.RA)
        (fun m hm' r hr => s3_routes_RA m (hm m hm') r hr) rp hrp
    intro s hs
    rw [hra] at hs
    exact s3_stops_after_RA rp.2 s hs
  have h2 := stage2_domain s3TT pt k (fun s => s = 0 ∨ s = 1) _ hq
    { st with marked_stops := [] } ht (by simp)
  have heq : roundStep s3TT pt k st =
      stage2 s3TT pt k (stage1 s3TT st.marked_stops) { st with marked_stops := [] } :=
    stage3_no_footpaths s3TT (fun _ => rfl) k _
  rw [heq]
  exact h2

/-- The whole round loop of `s3TT` keeps all boarding-trace stops and
marks inside `{0, 1}`. -/
theorem s3_loop_inv (pt : Nat) (l : List K) :
    ∀ st : RState Nat SRoute,
      (∀ e ∈ st.board_detail_per_k, e.1.2 = 0 ∨ e.1.2 = 1) →
      (∀ s ∈ st.marked_stops, s = 0 ∨ s = 1) →
      ∀ e ∈ (loopBreak s3TT pt l st).board_detail_per_k, e.1.2 = 0 ∨ e.1.2 = 1 := by
  induction l with
  | nil => intro st ht hm; exact ht
  | cons k rest ih =>
    intro st ht hm
    have h := s3_roundStep_inv pt k st ht hm
    show (∀ e ∈ (if (roundStep s3TT pt k st).marked_stops.isEmpty then roundStep s3TT pt k st
      else loopBreak s3TT pt rest (roundStep s3TT pt k st)).board_detail_per_k, _)
    split
    · exact h.1
    · exact ih (roundStep s3TT pt k st) h.1 h.2

/-- An association list whose keys' stops all lie in `{0, 1}` has no
binding at stop `3`. -/
theorem s3_alookup_none (tree : List ((K × Nat) × (Nat × SRoute)))
    (h : ∀ e ∈ tree, e.1.2 = 0 ∨ e.1.2 = 1) (j : K) :
    alookup tree (j, 3) = none := by
  induction tree with
  | nil => rfl
  | cons e rest ih =>
    simp only [alookup]
    split
    · next heq =>
      exfalso
      have h3 := h e (List.mem_cons_self _ _)
      rw [← heq] at h3
      simp at h3
    · exact ih (fun e' he' => h e' (List.mem_cons_of_mem _ he'))

/-- When the target differs from the source and the boarding tree has
no entry at the target for round `k`, the backward trace of round `k`
returns an empty plan stuck at the target (its first lookup fails). -/
theorem traceBack_stuck [DecidableEq Stop]
    (tree : List ((K × Stop) × (Stop × Route))) (ps pt : Stop)
    (hne : pt ≠ ps) (k : K) (hk : alookup tree (k, pt) = none) :
    ∀ plan : List (Route × Stop), traceBack tree ps k pt plan = (plan, pt) := by
  intro plan
  cases k with
  | zero => rfl
  | succ inner_k => simp [traceBack, hne, hk]

/-- Reconstruction returns no plan when the boarding tree never
reaches the target in any traced round. -/
theorem reconstruct_unreached [DecidableEq Stop]
    (tree : List ((K × Stop) × (Stop × Route))) (ps pt : Stop) (transfers : K)
    (hne : pt ≠ ps)
    (hnone : ∀ j ∈ List.range' 1 transfers, alookup tree (j, pt) = none) :
    reconstruct_journey tree ps pt transfers = [] := by
  unfold reconstruct_journey
  split
  · rfl
  · have h : ∀ l : List K, (∀ j ∈ l, alookup tree (j, pt) = none) →
        ∀ plans : List (List (Route × Stop)),
        l.foldl
          (fun plans k =>
            let res := traceBack tree ps k pt []
            if ¬res.1.isEmpty ∧ res.2 = ps then plans ++ [res.1.reverse] else plans)
          plans = plans := by
      intro l
      induction l with
      | nil => intro _ plans; rfl
      | cons k rest ih =>
        intro hl plans
        rw [List.foldl_cons]
        simp only [traceBack_stuck tree ps pt hne k (hl k (List.mem_cons_self _ _)) [],
          List.isEmpty_nil]
        simp only [not_true, false_and, if_false]
        exact ih (fun j hj => hl j (List.mem_cons_of_mem _ hj)) plans
    exact h _ hnone []

/-- Whenever the boarding trace never reaches the target, `raptor`
returns `some []`: the empty list, produced normally with no panic. -/
theorem raptor_unreached_empty [DecidableEq Stop] (tt : Timetable Stop Route Trip)
    (transfers : K) (tau : Tau) (ps pt : Stop) (hne : pt ≠ ps)
    (hnone : ∀ j ∈ List.range' 1 transfers,
      alookup (raptorFinal tt transfers tau ps pt).board_detail_per_k (j, pt) = none) :
    raptor tt transfers tau ps pt = some [] := by
  have hrec : reconstruct_journey (raptorFinal tt transfers tau ps pt).board_detail_per_k
      ps pt transfers = [] :=
    reconstruct_unreached _ ps pt transfers hne hnone
  simp only [raptor, hrec]
  rfl

/-- C7: an unreachable target yields the empty list, and an empty list
is a normal result, not an error.  In general: whenever the boarding
trace never reaches `p_t` (which is what unreachability within `k_max`
transfers means operationally), the result is `some []` — no panic.
In particular, on the disjoint two-route network `s3TT` (the spec's S3
scenario, source `0`, target `3`), every transfer bound and departure
time give `some []`. -/
theorem unreachable_empty :
    (∀ {Stop Route Trip : Type} [DecidableEq Stop] (tt : Timetable Stop Route Trip)
      (transfers : K) (tau : Tau) (ps pt : Stop), pt ≠ ps →
      (∀ j ∈ List.range' 1 transfers,
        alookup (raptorFinal tt transfers tau ps pt).board_detail_per_k (j, pt) = none) →
      raptor tt transfers tau ps pt = some []) ∧
    (∀ (transfers : K) (tau : Tau), raptor s3TT transfers tau 0 3 = some []) := by
  constructor
  · intro Stop Route Trip _ tt transfers tau ps pt hne hnone
    exact raptor_unreached_empty tt transfers tau ps pt hne hnone
  · intro transfers tau
    have hinv : ∀ e ∈ (raptorFinal s3TT transfers tau 0 3).board_detail_per_k,
        e.1.2 = 0 ∨ e.1.2 = 1 := by
      apply s3_loop_inv 3 (List.range' 1 transfers) (initState 0 tau)
      · intro e he
        simp [initState] at he
      · intro s hs
        simp only [initState, List.mem_singleton] at hs
        exact Or.inl hs
    exact raptor_unreached_empty s3TT transfers tau 0 3 (by decide)
      (fun j _ => s3_alookup_none _ hinv j)

/-- Witness for `unreachable_empty` at a concrete input. -/
theorem unreachable_empty_witness :
    raptor s3TT 2 0 0 3 = some [] :=
  unreachable_empty.1 s3TT 2 0 0 3 (by decide) (by decide)

/-- The relaxation step keeps every boarding-trace key labelled: it
inserts the trace entry and the per-round label together. -/
theorem relaxStep_treeSub [DecidableEq Stop] (tt : Timetable Stop Route Trip) (pt : Stop)
    (k : K) (route : Route) (s : ScanState Stop Route Trip) (pi : Stop)
    (h : ∀ (k' : K) (s' : Stop),
      (alookup s.st.board_detail_per_k (k', s')).isSome = true →
      (alookup s.st.best_arrival_per_k (k', s')).isSome = true) :
    ∀ (k' : K) (s' : Stop),
      (alookup (relaxStep tt pt k route s pi).st.board_detail_per_k (k', s')).isSome = true →
      (alookup (relaxStep tt pt k route s pi).st.best_arrival_per_k (k', s')).isSome = true := by
  unfold relaxStep
  cases s.current_trip with
  | none => exact h
  | some trip =>
    dsimp only
    split
    · intro k' s' hk
      by_cases hkey : ((k', s') : K × Stop) = (k, pi)
      · simp [alookup, hkey]
      · simp only [alookup, if_neg hkey] at hk ⊢
        exact h k' s' hk
    · exact h

/-- A route scan keeps every boarding-trace key labelled. -/
theorem scan_fold_treeSub [DecidableEq Stop] (tt : Timetable Stop Route Trip) (pt : Stop)
    (k : K) (route : Route) (stops : List Stop) :
    ∀ s : ScanState Stop Route Trip,
      (∀ (k' : K) (s' : Stop),
        (alookup s.st.board_detail_per_k (k', s')).isSome = true →
        (alookup s.st.best_arrival_per_k (k', s')).isSome = true) →
      ∀ (k' : K) (s' : Stop),
        (alookup (stops.foldl (scanStop tt pt k route) s).st.board_detail_per_k
          (k', s')).isSome = true →
        (alookup (stops.foldl (scanStop tt pt k route) s).st.best_arrival_per_k
          (k', s')).isSome = true := by
  induction stops with
  | nil => intro s h; exact h
  | cons pi rest ih =>
    intro s h
    have hrel := relaxStep_treeSub tt pt k route s pi h
    have hstep : (scanStop tt pt k route s pi).st = (relaxStep tt pt k route s pi).st :=
      boardUpdate_st tt k route _ pi
    simp only [List.foldl_cons]
    exact ih (scanStop tt pt k route s pi) (hstep ▸ hrel)

/-- Stage 2 keeps every boarding-trace key labelled. -/
theorem stage2_treeSub [DecidableEq Stop] (tt : Timetable Stop Route Trip) (pt : Stop)
    (k : K) (q : List (Route × Stop)) :
    ∀ st : RState Stop Route,
      (∀ (k' : K) (s' : Stop),
        (alookup st.board_detail_per_k (k', s')).isSome = true →
        (alookup st.best_arrival_per_k (k', s')).isSome = true) →
      ∀ (k' : K) (s' : Stop),
        (alookup (stage2 tt pt k q st).board_detail_per_k (k', s')).isSome = true →
        (alookup (stage2 tt pt k q st).best_arrival_per_k (k', s')).isSome = true := by
  induction q with
  | nil => intro st h; exact h
  | cons rp rest ih =>
    intro st h
    have hscan := scan_fold_treeSub tt pt k rp.1 (tt.get_stops_after rp.1 rp.2)
      { current_trip := none, boarding_stop := rp.2, st := st } h
    simpa only [stage2, List.foldl_cons] using ih _ hscan

/-- Stage 3 does not remove any per-round label and leaves the
boarding trace unchanged, so it keeps every trace key labelled. -/
theorem stage3_treeSub [DecidableEq Stop] (tt : Timetable Stop Route Trip) (k : K)
    (st : RState Stop Route)
    (h : ∀ (k' : K) (s' : Stop),
      (alookup st.board_detail_per_k (k', s')).isSome = true →
      (alookup st.best_arrival_per_k (k', s')).isSome = true) :
    ∀ (k' : K) (s' : Stop),
      (alookup (stage3 tt k st).board_detail_per_k (k', s')).isSome = true →
      (alookup (stage3 tt k st).best_arrival_per_k (k', s')).isSome = true := by
  have hfold : ∀ (fps : List Stop) (stop : Stop) (acc : RState Stop Route × List Stop)
      (key : K × Stop),
      (alookup acc.1.best_arrival_per_k key).isSome = true →
      (alookup (fps.foldl (footStep tt k stop) acc).1.best_arrival_per_k key).isSome = true := by
    intro fps
    induction fps with
    | nil => intro stop acc key hk; exact hk
    | cons pd rest ih =>
      intro stop acc key hk
      rw [List.foldl_cons]
      exact ih stop (footStep tt k stop acc pd) key (alookup_cons_isSome _ _ _ _ hk)
  have hcore : ∀ (ms : List Stop) (acc : RState Stop Route × List Stop) (key : K × Stop),
      (alookup acc.1.best_arrival_per_k key).isSome = true →
      (alookup (ms.foldl
        (fun acc stop => (tt.get_footpaths_from stop).foldl (footStep tt k stop) acc)
        acc).1.best_arrival_per_k key).isSome = true := by
    intro ms
    induction ms with
    | nil => intro acc key hk; exact hk
    | cons m rest ih =>
      intro acc key hk
      rw [List.foldl_cons]
      exact ih _ key (hfold (tt.get_footpaths_from m) m acc key hk)
  intro k' s' hk
  have htree := (stage3Core_fold_state tt k st.marked_stops (st, [])).2.1
  have hkey : (alookup st.board_detail_per_k (k', s')).isSome = true := by
    have : (stage3 tt k st).board_detail_per_k = st.board_detail_per_k := by
      show (stage3Core tt k st).1.board_detail_per_k = st.board_detail_per_k
      simpa [stage3Core] using htree
    rwa [this] at hk
  show (alookup (stage3Core tt k st).1.best_arrival_per_k (k', s')).isSome = true
  simpa [stage3Core] using
    hcore st.marked_stops (st, []) (k', s') (h k' s' hkey)

/-- One round keeps every boarding-trace key labelled. -/
theorem roundStep_treeSub [DecidableEq Stop] (tt : Timetable Stop Route Trip) (pt : Stop)
    (k : K) (st : RState Stop Route)
    (h : ∀ (k' : K) (s' : Stop),
      (alookup st.board_detail_per_k (k', s')).isSome = true →
      (alookup st.best_arrival_per_k (k', s')).isSome = true) :
    ∀ (k' : K) (s' : Stop),
      (alookup (roundStep tt pt k st).board_detail_per_k (k', s')).isSome = true →
      (alookup (roundStep tt pt k st).best_arrival_per_k (k', s')).isSome = true := by
  exact stage3_treeSub tt k _
    (stage2_treeSub tt pt k (stage1 tt st.marked_stops) { st with marked_stops := [] } h)

/-- The round loop keeps every boarding-trace key labelled. -/
theorem loop_treeSub [DecidableEq Stop] (tt : Timetable Stop Route Trip) (pt : Stop)
    (l : List K) :
    ∀ st : RState Stop Route,
      (∀ (k' : K) (s' : Stop),
        (alookup st.board_detail_per_k (k', s')).isSome = true →
        (alookup st.best_arrival_per_k (k', s')).isSome = true) →
      ∀ (k' : K) (s' : Stop),
        (alookup (loopBreak tt pt l st).board_detail_per_k (k', s')).isSome = true →
        (alookup (loopBreak tt pt l st).best_arrival_per_k (k', s')).isSome = true := by
  induction l with
  | nil => intro st h; exact h
  | cons k rest ih =>
    intro st h
    have hstep := roundStep_treeSub tt pt k st h
    show ∀ (k' : K) (s' : Stop),
      (alookup (if (roundStep tt pt k st).marked_stops.isEmpty then roundStep tt pt k st
        else loopBreak tt pt rest (roundStep tt pt k st)).board_detail_per_k
        (k', s')).isSome = true →
      (alookup (if (roundStep tt pt k st).marked_stops.isEmpty then roundStep tt pt k st
        else loopBreak tt pt rest (roundStep tt pt k st)).best_arrival_per_k
        (k', s')).isSome = true
    split
    · exact hstep
    · exact ih (roundStep tt pt k st) hstep

/-- C10 (amended): every key of the boarding trace of a finished run
has a per-round arrival label — the trace and label are always
inserted together, and labels are never removed — so the final arrival
lookup succeeds for every accepted plan whose length equals the round
it was traced from.  (It can still fail — see the counterexample — for
an accepted plan shorter than its traced round.) -/
theorem board_tree_has_label [DecidableEq Stop] (tt : Timetable Stop Route Trip)
    (transfers : K) (tau : Tau) (ps pt : Stop) (k : K) (s : Stop)
    (h : (alookup (raptorFinal tt transfers tau ps pt).board_detail_per_k (k, s)).isSome
      = true) :
    (alookup (raptorFinal tt transfers tau ps pt).best_arrival_per_k (k, s)).isSome
      = true := by
  refine loop_treeSub tt pt (List.range' 1 transfers) (initState ps tau) ?_ k s h
  intro k' s' hk
  simp [initState, alookup] at hk

/-- Witness for `board_tree_has_label` at a concrete input. -/
theorem board_tree_has_label_witness :
    (alookup (raptorFinal issue1TT 3 0 'S' 'D').best_arrival_per_k (1, 'B')).isSome
      = true :=
  board_tree_has_label issue1TT 3 0 'S' 'D' 1 'B' (by decide)

/-- `cexTT` satisfies the §4.1 guarantees: every non-empty stop suffix
starts with the queried stop, arrivals never exceed departures, and
`earliest_trip` is sound and monotone (each route carries one trip, so
non-overtaking is trivial). -/
theorem cexTT_guarantees : Guarantees cexTT := by
  constructor
  · intro r s h
    cases r <;> rcases s with _ | _ | _ | s <;>
      first
      | (exact absurd rfl h)
      | (simp only [cexTT]; rfl)
  · intro trip s
    rcases trip with _ | _ | _ | trip <;> rcases s with _ | _ | _ | s <;>
      simp only [cexTT] <;> decide
  · intro r τ s trip h
    cases r <;> rcases s with _ | _ | _ | s <;> simp only [cexTT] at h <;>
      try exact Option.noConfusion h
    all_goals split_ifs at h with hc
    all_goals
      first
      | exact Option.noConfusion h
      | (injection h with he; subst he; exact hc)
  · intro r s τ1 τ2 hle trip h
    cases r <;> rcases s with _ | _ | _ | s <;> simp only [cexTT] at h <;>
      try exact Option.noConfusion h
    all_goals split_ifs at h with hc
    all_goals
      first
      | exact Option.noConfusion h
      | (refine ⟨trip, ?_, le_refl _⟩
         simp only [cexTT]
         rw [if_pos (le_trans hle hc)]
         exact h)

/-- C10 counterexample: `cexTT` satisfies the §4.1 guarantees, yet
`raptor(3, 50, S, D)` reaches `D` only in round 3 with a one-hop plan
boarded at the source, and the final arrival lookup at
`(len(plan), p_t) = (1, D)` finds no label — the `unwrap` of
`src/lib.rs` line 189 panics, so `raptor` is not total. -/
theorem unwrap_panic_cex :
    Guarantees cexTT ∧ raptor cexTT 3 50 0 2 = none :=
  ⟨cexTT_guarantees, by decide⟩
